import Mathlib

/-!
Verification of the legacy-Bitcoin-transaction library (`src/lib.rs`):
a shallow embedding of its data model, codec, builder, `Point<T>` text
parser and CLI command parser, together with theorems settling the
specification's claims about them.

Bytes are modelled as `Nat` values (always below 256 when produced by the
encoder); byte slices as `List Nat`; Rust's `i32` as `Int` with explicit
two's-complement reduction modulo 2^32 at the byte boundary; `u32`/`u64`
as `Nat`.  Fallible operations return `Except BitcoinError`.
-/

namespace RustWeek4

/-! ## Error taxonomy (`enum BitcoinError`) -/

/-- Embedding of `enum BitcoinError`: the four failure kinds of the library.
`ParseError` carries its dynamic message, the others only a static display
string (not modelled, as no claim mentions the `Display` impl). -/
inductive BitcoinError where
  | InvalidTransaction
  | InvalidScript
  | InvalidAmount
  | ParseError (msg : String)
  deriving DecidableEq, Repr

/-! ## Primitive records and the transaction record -/

/-- Embedding of `struct OutPoint { txid: [u8; 32], vout: u32 }`. -/
structure OutPoint where
  txid : List Nat
  vout : Nat
  deriving DecidableEq, Repr

/-- Embedding of `struct TxInput`. -/
structure TxInput where
  previous_output : OutPoint
  script_sig : List Nat
  sequence : Nat
  deriving DecidableEq, Repr

/-- Embedding of `struct TxOutput`. -/
structure TxOutput where
  value : Nat
  script_pubkey : List Nat
  deriving DecidableEq, Repr

/-- Embedding of `struct LegacyTransaction`: `version` is Rust `i32`
(here `Int`), `lock_time` is `u32` (here `Nat`). -/
structure LegacyTransaction where
  version : Int
  inputs : List TxInput
  outputs : List TxOutput
  lock_time : Nat
  deriving DecidableEq, Repr

/-! ## Little-endian 4-byte conversions

These model `u32::to_le_bytes` / `u32::from_le_bytes` and
`i32::to_le_bytes` / `i32::from_le_bytes` on 4-byte buffers. -/

/-- `u32::to_le_bytes`: the four little-endian base-256 digits of `n`
(for `n < 2^32`). -/
def u32ToLeBytes (n : Nat) : List Nat :=
  [n % 256, n / 256 % 256, n / 65536 % 256, n / 16777216 % 256]

/-- `u32::from_le_bytes` on a 4-byte buffer (missing entries read as 0,
matching a zero-initialized buffer). -/
def u32FromLeBytes (b : List Nat) : Nat :=
  b.getD 0 0 + 256 * b.getD 1 0 + 65536 * b.getD 2 0 + 16777216 * b.getD 3 0

/-- `i32::to_le_bytes`: two's-complement reduction of `v` modulo 2^32,
then little-endian base-256 digits. -/
def i32ToLeBytes (v : Int) : List Nat :=
  u32ToLeBytes (v % 4294967296).toNat

/-- `i32::from_le_bytes`: read the unsigned value, then reinterpret in
two's complement. -/
def i32FromLeBytes (b : List Nat) : Int :=
  if u32FromLeBytes b < 2147483648 then (u32FromLeBytes b : Int)
  else (u32FromLeBytes b : Int) - 4294967296

/-! ## Encoder (`impl BitcoinSerialize for LegacyTransaction`) -/

/-- Embedding of `LegacyTransaction::serialize`: the 4 little-endian bytes
of `version` followed by the 4 little-endian bytes of `lock_time`. -/
def LegacyTransaction.serialize (t : LegacyTransaction) : List Nat :=
  i32ToLeBytes t.version ++ u32ToLeBytes t.lock_time

/-! ## Decoder (`impl TryFrom<&[u8]> for LegacyTransaction`) -/

/-- Models `std::io::Read::read_exact` on a `&[u8]` slice into a 4-byte
zero-initialized buffer: if at least 4 bytes remain they are consumed and
returned; otherwise the read fails, leaving the zero buffer and the slice
unchanged (the `Result` is discarded by the source via `let _ = ...`). -/
def read4 (data : List Nat) : List Nat × List Nat :=
  if 4 ≤ data.length then (data.take 4, data.drop 4) else ([0, 0, 0, 0], data)

/-- Models `Vec::with_capacity(n)`: a sequence of length 0; the capacity
argument is a memory hint with no observable content. -/
def vecWithCapacity {α : Type} (_capacity : Nat) : List α := []

/-- Embedding of `<LegacyTransaction as TryFrom<&[u8]>>::try_from`:
reject slices shorter than 12 bytes, then perform four sequential
`read_exact` reads of 4 bytes each (failed reads leave zero buffers). -/
def tryFrom (data : List Nat) : Except BitcoinError LegacyTransaction :=
  if data.length < 12 then
    .error .InvalidTransaction
  else
    let r1 := read4 data
    let version_buf := r1.1
    let r2 := read4 r1.2
    let input_buf := r2.1
    let r3 := read4 r2.2
    let ouput_buf := r3.1
    let r4 := read4 r3.2
    let lock_time_buf := r4.1
    let input_count := u32FromLeBytes input_buf
    let output_count := u32FromLeBytes ouput_buf
    .ok { version := i32FromLeBytes version_buf
          inputs := vecWithCapacity input_count
          outputs := vecWithCapacity output_count
          lock_time := u32FromLeBytes lock_time_buf }

/-! ## Builder (`struct LegacyTransactionBuilder`) -/

/-- Embedding of `struct LegacyTransactionBuilder`: the same four fields as
`LegacyTransaction`, mutated in place by the fluent setters. -/
structure LegacyTransactionBuilder where
  version : Int
  inputs : List TxInput
  outputs : List TxOutput
  lock_time : Nat
  deriving DecidableEq, Repr

namespace LegacyTransactionBuilder

/-- Embedding of `impl Default for LegacyTransactionBuilder`. -/
def default : LegacyTransactionBuilder :=
  { version := 1, inputs := [], outputs := [], lock_time := 0 }

/-- Embedding of `LegacyTransactionBuilder::new` (delegates to `default`). -/
def new : LegacyTransactionBuilder := default

/-- Embedding of the setter `LegacyTransactionBuilder::version` (named
`setVersion` here because the structure field of the same name occupies the
Rust method's name). -/
def setVersion (b : LegacyTransactionBuilder) (version : Int) : LegacyTransactionBuilder :=
  { b with version := version }

/-- Embedding of `LegacyTransactionBuilder::add_input`: push onto `inputs`. -/
def add_input (b : LegacyTransactionBuilder) (input : TxInput) : LegacyTransactionBuilder :=
  { b with inputs := b.inputs ++ [input] }

/-- Embedding of `LegacyTransactionBuilder::add_output`: push onto `outputs`. -/
def add_output (b : LegacyTransactionBuilder) (output : TxOutput) : LegacyTransactionBuilder :=
  { b with outputs := b.outputs ++ [output] }

/-- Embedding of the setter `LegacyTransactionBuilder::lock_time` (named
`setLockTime` here; see `setVersion`). -/
def setLockTime (b : LegacyTransactionBuilder) (lock_time : Nat) : LegacyTransactionBuilder :=
  { b with lock_time := lock_time }

/-- Embedding of `LegacyTransactionBuilder::build`: move the four fields
into a `LegacyTransaction`. -/
def build (b : LegacyTransactionBuilder) : LegacyTransaction :=
  { version := b.version, inputs := b.inputs, outputs := b.outputs, lock_time := b.lock_time }

end LegacyTransactionBuilder

/-- Embedding of `LegacyTransaction::builder`: a fresh default builder. -/
def LegacyTransaction.builder : LegacyTransactionBuilder :=
  LegacyTransactionBuilder.default

/-! ## Generic `Point<T>` and its text parser

Rust strings are modelled as `List Char`; the `T: FromStr` bound is
modelled as an explicit component parser `List Char → Option T`. -/

/-- Embedding of `struct Point<T> { x: T, y: T }`. -/
structure Point (T : Type) where
  x : T
  y : T
  deriving DecidableEq, Repr

/-- Embedding of `Point::new`. -/
def Point.new {T : Type} (x y : T) : Point T := { x := x, y := y }

/-- Models `str::strip_prefix(c)` for a one-character pattern: remove the
leading character when it equals `c`, otherwise fail. -/
def stripFirst (c : Char) : List Char → Option (List Char)
  | [] => none
  | a :: s => if a = c then some s else none

/-- Models `str::strip_suffix(c)` for a one-character pattern: remove the
trailing character when it equals `c`, otherwise fail. -/
def stripLast (c : Char) (s : List Char) : Option (List Char) :=
  match s.reverse with
  | [] => none
  | a :: t => if a = c then some t.reverse else none

/-- Models `str::split_once(c)`: split around the first occurrence of `c`,
failing when `c` does not occur. -/
def splitOnce (c : Char) : List Char → Option (List Char × List Char)
  | [] => none
  | a :: s => if a = c then some ([], s) else (splitOnce c s).map fun p => (a :: p.1, p.2)

/-- Embedding of `<Point<T> as FromStr>::from_str`: strip `(` and `)`,
split the interior at the first comma, and hand each half to the component
parser, surfacing the three exact error messages of the source. -/
def Point.from_str {T : Type} (parseT : List Char → Option T) (s : List Char) :
    Except BitcoinError (Point T) :=
  match ((stripFirst '(' s).bind (stripLast ')')).bind (splitOnce ',') with
  | none => .error (.ParseError "Error parsing values")
  | some (x, y) =>
    match parseT x with
    | none => .error (.ParseError "Could not parse x value")
    | some x_fromstr =>
      match parseT y with
      | none => .error (.ParseError "Could not parse y value")
      | some y_fromstr => .ok { x := x_fromstr, y := y_fromstr }

/-- The `Point` parser as the specification claim words it: succeed exactly
when the input begins with `(`, ends with `)`, and the interior contains a
comma, splitting the interior at its first comma into halves handed to the
component parser; otherwise report the listed message for the failing
stage.  Stated for comparison with `Point.from_str`, the embedding of the
source. -/
def pointFromStrClaim {T : Type} (parseT : List Char → Option T) (s : List Char) :
    Except BitcoinError (Point T) :=
  if s.head? = some '(' ∧ s.getLast? = some ')' ∧ ',' ∈ (s.drop 1).dropLast then
    match parseT (((s.drop 1).dropLast).takeWhile fun c => c ≠ ',') with
    | none => .error (.ParseError "Could not parse x value")
    | some xv =>
      match parseT ((((s.drop 1).dropLast).dropWhile fun c => c ≠ ',').drop 1) with
      | none => .error (.ParseError "Could not parse y value")
      | some yv => .ok { x := xv, y := yv }
  else
    .error (.ParseError "Error parsing values")

/-! ## CLI command parser (`parse_cli_args`)

The recognition step of the source calls `Cli::try_parse_from` from the
external `clap` crate; that step is modelled from the spec.  The
validation that follows recognition is repository code and embedded
directly. -/

/-- Embedding of `enum CliCommand` (the `clap` attribute metadata carries
no run-time meaning beyond the grammar modelled in `cliTryParse`). -/
inductive CliCommand where
  | Send (amount : Nat) (address : String)
  | Balance
  deriving DecidableEq, Repr

/-- Modelled from the spec: the decimal `u64` value parser the external CLI
library applies to `amount` ("amount: decimal u64") — a non-empty string of
decimal digits whose value fits in 64 bits. -/
def parseU64 (s : String) : Option Nat :=
  if s.data ≠ [] ∧ s.data.all fun c => c.isDigit then
    let n := s.data.foldl (fun acc c => 10 * acc + (c.toNat - 48)) 0
    if n < 18446744073709551616 then some n else none
  else
    none

/-- Modelled from the spec: the recognition performed by the external CLI
library (`Cli::try_parse_from` of the `clap` crate, which is not part of
this repository).  Per §4.4/§6 of the spec the tool recognizes exactly
`send <amount:u64> <address:string>` (both positional and required, in that
order) and `balance` (no arguments); the subcommand is optional
(`command: Option<CliCommand>`), so an empty argument list parses to no
command; any other argument list is a recognition failure (`none`). -/
def cliTryParse (args : List String) : Option (Option CliCommand) :=
  match args with
  | [] => some none
  | ["send", amount, address] => (parseU64 amount).map fun n => some (.Send n address)
  | ["balance"] => some (some .Balance)
  | _ => none

/-- Embedding of `parse_cli_args`: empty-argv check, recognition (the
program name `"BTxC Decoder"` the source prepends is consumed by
recognition, so `cliTryParse` receives the user arguments), then
validation of the recognized `send` arguments in source order.  The
source's first validation branch (`Some(amount).is_none()`) is statically
false and therefore elided; the `println!` side effect is not modelled. -/
def parse_cli_args (args : List String) : Except BitcoinError CliCommand :=
  if args.length = 0 then
    .error (.ParseError "No arguments provided")
  else
    match cliTryParse args with
    | none => .error (.ParseError "Failed to parse arguments")
    | some (some (.Send amount address)) =>
      if address.isEmpty then
        .error (.ParseError "Address cannot be empty")
      else if amount = 0 then
        .error .InvalidAmount
      else
        .ok (.Send amount address)
    | some (some .Balance) => .ok .Balance
    | some none => .error (.ParseError "No valid command specified")

/-! ## Helper lemmas -/

theorem read4_cons (a b c d : Nat) (t : List Nat) :
    read4 (a :: b :: c :: d :: t) = ([a, b, c, d], t) := by
  simp [read4]

theorem read4_short (D : List Nat) (h : D.length < 4) :
    read4 D = ([0, 0, 0, 0], D) := by
  unfold read4
  rw [if_neg (by omega)]

theorem exists_cons_of_length_pos {α : Type} (D : List α) (h : 0 < D.length) :
    ∃ a t, D = a :: t := by
  cases D with
  | nil => simp at h
  | cons a t => exact ⟨a, t, rfl⟩

theorem exists_twelve (D : List Nat) (h : 12 ≤ D.length) :
    ∃ b0 b1 b2 b3 b4 b5 b6 b7 b8 b9 b10 b11 rest,
      D = b0 :: b1 :: b2 :: b3 :: b4 :: b5 :: b6 :: b7 :: b8 :: b9 :: b10 :: b11 :: rest := by
  obtain ⟨b0, D, rfl⟩ := exists_cons_of_length_pos D (by omega)
  simp only [List.length_cons] at h
  obtain ⟨b1, D, rfl⟩ := exists_cons_of_length_pos D (by omega)
  simp only [List.length_cons] at h
  obtain ⟨b2, D, rfl⟩ := exists_cons_of_length_pos D (by omega)
  simp only [List.length_cons] at h
  obtain ⟨b3, D, rfl⟩ := exists_cons_of_length_pos D (by omega)
  simp only [List.length_cons] at h
  obtain ⟨b4, D, rfl⟩ := exists_cons_of_length_pos D (by omega)
  simp only [List.length_cons] at h
  obtain ⟨b5, D, rfl⟩ := exists_cons_of_length_pos D (by omega)
  simp only [List.length_cons] at h
  obtain ⟨b6, D, rfl⟩ := exists_cons_of_length_pos D (by omega)
  simp only [List.length_cons] at h
  obtain ⟨b7, D, rfl⟩ := exists_cons_of_length_pos D (by omega)
  simp only [List.length_cons] at h
  obtain ⟨b8, D, rfl⟩ := exists_cons_of_length_pos D (by omega)
  simp only [List.length_cons] at h
  obtain ⟨b9, D, rfl⟩ := exists_cons_of_length_pos D (by omega)
  simp only [List.length_cons] at h
  obtain ⟨b10, D, rfl⟩ := exists_cons_of_length_pos D (by omega)
  simp only [List.length_cons] at h
  obtain ⟨b11, D, rfl⟩ := exists_cons_of_length_pos D (by omega)
  exact ⟨b0, b1, b2, b3, b4, b5, b6, b7, b8, b9, b10, b11, D, rfl⟩

theorem exists_sixteen (D : List Nat) (h : 16 ≤ D.length) :
    ∃ b0 b1 b2 b3 b4 b5 b6 b7 b8 b9 b10 b11 b12 b13 b14 b15 rest,
      D = b0 :: b1 :: b2 :: b3 :: b4 :: b5 :: b6 :: b7 :: b8 :: b9 :: b10 :: b11 ::
          b12 :: b13 :: b14 :: b15 :: rest := by
  obtain ⟨b0, b1, b2, b3, b4, b5, b6, b7, b8, b9, b10, b11, D, rfl⟩ :=
    exists_twelve D (by omega)
  simp only [List.length_cons] at h
  obtain ⟨b12, D, rfl⟩ := exists_cons_of_length_pos D (by omega)
  simp only [List.length_cons] at h
  obtain ⟨b13, D, rfl⟩ := exists_cons_of_length_pos D (by omega)
  simp only [List.length_cons] at h
  obtain ⟨b14, D, rfl⟩ := exists_cons_of_length_pos D (by omega)
  simp only [List.length_cons] at h
  obtain ⟨b15, D, rfl⟩ := exists_cons_of_length_pos D (by omega)
  exact ⟨b0, b1, b2, b3, b4, b5, b6, b7, b8, b9, b10, b11, b12, b13, b14, b15, D, rfl⟩

theorem tryFrom_sixteen (b0 b1 b2 b3 b4 b5 b6 b7 b8 b9 b10 b11 b12 b13 b14 b15 : Nat)
    (rest : List Nat) :
    tryFrom (b0 :: b1 :: b2 :: b3 :: b4 :: b5 :: b6 :: b7 :: b8 :: b9 :: b10 :: b11 ::
        b12 :: b13 :: b14 :: b15 :: rest) =
      .ok { version := i32FromLeBytes [b0, b1, b2, b3], inputs := [], outputs := [],
            lock_time := u32FromLeBytes [b12, b13, b14, b15] } := by
  unfold tryFrom
  rw [if_neg (by simp only [List.length_cons]; omega)]
  simp only [read4_cons]
  rfl

theorem tryFrom_twelve (b0 b1 b2 b3 b4 b5 b6 b7 b8 b9 b10 b11 : Nat)
    (rest : List Nat) (hr : rest.length < 4) :
    tryFrom (b0 :: b1 :: b2 :: b3 :: b4 :: b5 :: b6 :: b7 :: b8 :: b9 :: b10 :: b11 :: rest) =
      .ok { version := i32FromLeBytes [b0, b1, b2, b3], inputs := [], outputs := [],
            lock_time := 0 } := by
  unfold tryFrom
  rw [if_neg (by simp only [List.length_cons]; omega)]
  simp only [read4_cons, read4_short rest hr]
  rfl

theorem u32_roundtrip (n : Nat) (h : n < 4294967296) :
    u32FromLeBytes (u32ToLeBytes n) = n := by
  show n % 256 + 256 * (n / 256 % 256) + 65536 * (n / 65536 % 256) +
      16777216 * (n / 16777216 % 256) = n
  omega

theorem i32_roundtrip (v : Int) (h1 : -2147483648 ≤ v) (h2 : v < 2147483648) :
    i32FromLeBytes (i32ToLeBytes v) = v := by
  unfold i32FromLeBytes i32ToLeBytes
  rw [u32_roundtrip _ (by omega)]
  split_ifs with hc
  · omega
  · omega

/-! ## Claim theorems -/

/-- C1. For every `LegacyTransaction`, `serialize` yields exactly the 4
little-endian two's-complement bytes of `version` followed by the 4
little-endian bytes of `lock_time` — 8 bytes, no input/output counts or
bodies — and is total and deterministic in `(version, lock_time)` alone,
regardless of inputs and outputs. -/
theorem claim1_serialize_header_only (t : LegacyTransaction) :
    t.serialize.length = 8 ∧
    t.serialize = [(t.version % 4294967296).toNat % 256,
        (t.version % 4294967296).toNat / 256 % 256,
        (t.version % 4294967296).toNat / 65536 % 256,
        (t.version % 4294967296).toNat / 16777216 % 256,
        t.lock_time % 256, t.lock_time / 256 % 256,
        t.lock_time / 65536 % 256, t.lock_time / 16777216 % 256] ∧
    ∀ t2 : LegacyTransaction, t.version = t2.version → t.lock_time = t2.lock_time →
      t.serialize = t2.serialize := by
  refine ⟨rfl, rfl, fun t2 hv hl => ?_⟩
  simp [LegacyTransaction.serialize, i32ToLeBytes, u32ToLeBytes, hv, hl]

/-- Witness for C1: the spec's scenario 4 (`version = -1`,
`lock_time = 0xFFFFFFFF`) serializes to eight `0xFF` bytes, and a
transaction with the same scalars but one input and one output serializes
to the same bytes. -/
theorem claim1_serialize_header_only_witness :
    ({ version := -1, inputs := [], outputs := [], lock_time := 4294967295 } :
        LegacyTransaction).version =
      ({ version := -1,
         inputs := [{ previous_output := { txid := List.replicate 32 0, vout := 0 },
                      script_sig := [], sequence := 0 }],
         outputs := [{ value := 50, script_pubkey := [1, 2] }],
         lock_time := 4294967295 } : LegacyTransaction).version ∧
    ({ version := -1, inputs := [], outputs := [], lock_time := 4294967295 } :
        LegacyTransaction).serialize =
      ({ version := -1,
         inputs := [{ previous_output := { txid := List.replicate 32 0, vout := 0 },
                      script_sig := [], sequence := 0 }],
         outputs := [{ value := 50, script_pubkey := [1, 2] }],
         lock_time := 4294967295 } : LegacyTransaction).serialize ∧
    ({ version := -1, inputs := [], outputs := [], lock_time := 4294967295 } :
        LegacyTransaction).serialize = [255, 255, 255, 255, 255, 255, 255, 255] :=
  ⟨rfl, (claim1_serialize_header_only _).2.2 _ rfl rfl, rfl⟩

/-- C2. Decoding fails exactly on slices shorter than 12 bytes, always
with `InvalidTransaction`; every slice of length at least 12 decodes
successfully. -/
theorem claim2_decode_admission (D : List Nat) :
    (D.length < 12 ↔ tryFrom D = .error .InvalidTransaction) ∧
    (12 ≤ D.length ↔ ∃ t, tryFrom D = .ok t) := by
  unfold tryFrom
  split_ifs with h
  · refine ⟨⟨fun _ => rfl, fun _ => h⟩, ⟨fun h2 => absurd h2 (by omega), ?_⟩⟩
    rintro ⟨t, ht⟩
    simp at ht
  · refine ⟨⟨fun h2 => absurd h2 h, fun he => ?_⟩, ⟨fun _ => ⟨_, rfl⟩, fun _ => by omega⟩⟩
    simp at he

/-- C3. On a slice of at least 16 bytes, decoding succeeds with `version`
read little-endian signed from bytes 0..4 and `lock_time` read
little-endian unsigned from bytes 12..16, and bytes from offset 16 onward
never affect the result. -/
theorem claim3_decode_fields_ge16 (D : List Nat) (h : 16 ≤ D.length) :
    tryFrom D = .ok
      { version := i32FromLeBytes [D.getD 0 0, D.getD 1 0, D.getD 2 0, D.getD 3 0],
        inputs := [], outputs := [],
        lock_time := u32FromLeBytes [D.getD 12 0, D.getD 13 0, D.getD 14 0, D.getD 15 0] } ∧
    tryFrom D = tryFrom (D.take 16) := by
  obtain ⟨b0, b1, b2, b3, b4, b5, b6, b7, b8, b9, b10, b11, b12, b13, b14, b15, rest, rfl⟩ :=
    exists_sixteen D h
  have ht : (b0 :: b1 :: b2 :: b3 :: b4 :: b5 :: b6 :: b7 :: b8 :: b9 :: b10 :: b11 ::
      b12 :: b13 :: b14 :: b15 :: rest).take 16 =
      [b0, b1, b2, b3, b4, b5, b6, b7, b8, b9, b10, b11, b12, b13, b14, b15] := rfl
  rw [ht, tryFrom_sixteen, tryFrom_sixteen]
  exact ⟨rfl, rfl⟩

/-- Witness for C3: the spec's scenario 1 header extended by two trailing
garbage bytes decodes to `version = 1`, `lock_time = 4`, with the trailing
bytes ignored. -/
theorem claim3_decode_fields_ge16_witness :
    16 ≤ ([1, 0, 0, 0, 2, 0, 0, 0, 3, 0, 0, 0, 4, 0, 0, 0, 9, 9] : List Nat).length ∧
    tryFrom [1, 0, 0, 0, 2, 0, 0, 0, 3, 0, 0, 0, 4, 0, 0, 0, 9, 9] = .ok
      { version := i32FromLeBytes [1, 0, 0, 0], inputs := [], outputs := [],
        lock_time := u32FromLeBytes [4, 0, 0, 0] } ∧
    tryFrom [1, 0, 0, 0, 2, 0, 0, 0, 3, 0, 0, 0, 4, 0, 0, 0, 9, 9] =
      tryFrom ([1, 0, 0, 0, 2, 0, 0, 0, 3, 0, 0, 0, 4, 0, 0, 0, 9, 9].take 16) ∧
    i32FromLeBytes [1, 0, 0, 0] = 1 ∧ u32FromLeBytes [4, 0, 0, 0] = 4 := by
  refine ⟨by decide, ?_, ?_, by decide, by decide⟩
  · exact (claim3_decode_fields_ge16 _ (by decide)).1
  · exact (claim3_decode_fields_ge16 _ (by decide)).2

/-- C5. On a slice of 12 to 15 bytes the decode still succeeds; the
`lock_time` field, whose 4 bytes are not all available at offset 12, reads
as zero from its untouched zero-initialized buffer, while `version` (and
the two counts, discarded into empty sequences) read normally; 12 zero
bytes decode to the all-zero transaction. -/
theorem claim5_short_read_zero_fill (D : List Nat) (h12 : 12 ≤ D.length)
    (h15 : D.length ≤ 15) :
    tryFrom D = .ok
      { version := i32FromLeBytes [D.getD 0 0, D.getD 1 0, D.getD 2 0, D.getD 3 0],
        inputs := [], outputs := [], lock_time := 0 } ∧
    tryFrom (List.replicate 12 0) =
      .ok { version := 0, inputs := [], outputs := [], lock_time := 0 } := by
  obtain ⟨b0, b1, b2, b3, b4, b5, b6, b7, b8, b9, b10, b11, rest, rfl⟩ := exists_twelve D h12
  have hr : rest.length < 4 := by simp only [List.length_cons] at h15; omega
  rw [tryFrom_twelve b0 b1 b2 b3 b4 b5 b6 b7 b8 b9 b10 b11 rest hr]
  exact ⟨rfl, rfl⟩

/-- Witness for C5: the spec's scenario 3, twelve zero bytes, decodes with
all four fields zero. -/
theorem claim5_short_read_zero_fill_witness :
    12 ≤ (List.replicate 12 0 : List Nat).length ∧
    (List.replicate 12 0 : List Nat).length ≤ 15 ∧
    tryFrom (List.replicate 12 0) =
      .ok { version := 0, inputs := [], outputs := [], lock_time := 0 } :=
  ⟨by decide, by decide, (claim5_short_read_zero_fill (List.replicate 12 0)
      (by decide) (by decide)).2⟩

/-- C4. Every successful decode returns a transaction whose `inputs` and
`outputs` are empty, whatever the decoded counts are (they are only
capacity hints). -/
theorem claim4_decoded_sequences_empty (D : List Nat) (h : 12 ≤ D.length) :
    ∃ t, tryFrom D = .ok t ∧ t.inputs = [] ∧ t.outputs = [] ∧
      t.inputs.length = 0 ∧ t.outputs.length = 0 := by
  unfold tryFrom
  rw [if_neg (by omega)]
  exact ⟨_, rfl, rfl, rfl, rfl, rfl⟩

/-- Witness for C4: a slice whose `input_count` and `output_count` bytes
decode to `0xFFFFFFFF` is accepted and still yields length-0 sequences. -/
theorem claim4_decoded_sequences_empty_witness :
    u32FromLeBytes [255, 255, 255, 255] = 4294967295 ∧
    12 ≤ ([0, 0, 0, 0, 255, 255, 255, 255, 255, 255, 255, 255, 0, 0, 0, 0] : List Nat).length ∧
    ∃ t, tryFrom [0, 0, 0, 0, 255, 255, 255, 255, 255, 255, 255, 255, 0, 0, 0, 0] = .ok t ∧
      t.inputs = [] ∧ t.outputs = [] ∧ t.inputs.length = 0 ∧ t.outputs.length = 0 :=
  ⟨rfl, by decide, claim4_decoded_sequences_empty _ (by decide)⟩

/-- C6. Let `E` be the 8-byte encoding of a built transaction with scalars
`v` and `lt`.  Decoding `E[0..4] ++ (8 zero bytes) ++ E[4..8]` — the zeros
inserted between the two fields to realign to the decoder's 16-byte
layout — recovers `version = v` and `lock_time = lt`; decoding `E` with
the eight zero bytes merely appended instead yields `lock_time = 0`, so
encoder and decoder are not format-compatible by plain concatenation. -/
theorem claim6_realign_roundtrip (v : Int) (lt : Nat)
    (hv1 : -2147483648 ≤ v) (hv2 : v < 2147483648) (hlt : lt < 4294967296) :
    tryFrom ((((LegacyTransaction.builder.setVersion v).setLockTime lt).build.serialize).take 4
        ++ List.replicate 8 0
        ++ (((LegacyTransaction.builder.setVersion v).setLockTime lt).build.serialize).drop 4) =
      .ok { version := v, inputs := [], outputs := [], lock_time := lt } ∧
    ∃ t, tryFrom (((LegacyTransaction.builder.setVersion v).setLockTime lt).build.serialize
        ++ List.replicate 8 0) = .ok t ∧ t.lock_time = 0 := by
  have e2 : i32FromLeBytes [(v % 4294967296).toNat % 256, (v % 4294967296).toNat / 256 % 256,
      (v % 4294967296).toNat / 65536 % 256, (v % 4294967296).toNat / 16777216 % 256] = v :=
    i32_roundtrip v hv1 hv2
  have e3 : u32FromLeBytes [lt % 256, lt / 256 % 256, lt / 65536 % 256, lt / 16777216 % 256] = lt :=
    u32_roundtrip lt hlt
  constructor
  · have e1 : (((LegacyTransaction.builder.setVersion v).setLockTime lt).build.serialize).take 4
        ++ List.replicate 8 0
        ++ (((LegacyTransaction.builder.setVersion v).setLockTime lt).build.serialize).drop 4 =
        (v % 4294967296).toNat % 256 :: (v % 4294967296).toNat / 256 % 256 ::
        (v % 4294967296).toNat / 65536 % 256 :: (v % 4294967296).toNat / 16777216 % 256 ::
        0 :: 0 :: 0 :: 0 :: 0 :: 0 :: 0 :: 0 ::
        lt % 256 :: lt / 256 % 256 :: lt / 65536 % 256 :: lt / 16777216 % 256 :: [] := rfl
    rw [e1, tryFrom_sixteen, e2, e3]
  · have e4 : ((LegacyTransaction.builder.setVersion v).setLockTime lt).build.serialize
        ++ List.replicate 8 0 =
        (v % 4294967296).toNat % 256 :: (v % 4294967296).toNat / 256 % 256 ::
        (v % 4294967296).toNat / 65536 % 256 :: (v % 4294967296).toNat / 16777216 % 256 ::
        lt % 256 :: lt / 256 % 256 :: lt / 65536 % 256 :: lt / 16777216 % 256 ::
        0 :: 0 :: 0 :: 0 :: 0 :: 0 :: 0 :: 0 :: [] := rfl
    rw [e4, tryFrom_sixteen]
    exact ⟨_, rfl, rfl⟩

/-- Witness for C6 at `v = -7`, `lt = 99`. -/
theorem claim6_realign_roundtrip_witness :
    (-2147483648 : Int) ≤ -7 ∧ (-7 : Int) < 2147483648 ∧ (99 : Nat) < 4294967296 ∧
    (tryFrom ((((LegacyTransaction.builder.setVersion (-7)).setLockTime 99).build.serialize).take 4
        ++ List.replicate 8 0
        ++ (((LegacyTransaction.builder.setVersion (-7)).setLockTime 99).build.serialize).drop 4) =
      .ok { version := -7, inputs := [], outputs := [], lock_time := 99 } ∧
    ∃ t, tryFrom (((LegacyTransaction.builder.setVersion (-7)).setLockTime 99).build.serialize
        ++ List.replicate 8 0) = .ok t ∧ t.lock_time = 0) :=
  ⟨by norm_num, by norm_num, by norm_num,
   claim6_realign_roundtrip (-7) 99 (by norm_num) (by norm_num) (by norm_num)⟩

/-- C7. The builder defaults to `version = 1`, empty `inputs` and
`outputs`, `lock_time = 0`; each setter overwrites only its scalar (so the
last of two calls wins); `add_input`/`add_output` append in call order;
and `build` always yields a transaction with exactly the builder's fields,
with no validation (a transaction with no inputs and outputs is fine). -/
theorem claim7_builder_spec :
    LegacyTransaction.builder =
      { version := 1, inputs := [], outputs := [], lock_time := 0 } ∧
    LegacyTransactionBuilder.new =
      { version := 1, inputs := [], outputs := [], lock_time := 0 } ∧
    (∀ (b : LegacyTransactionBuilder) (v : Int),
        b.setVersion v = { b with version := v }) ∧
    (∀ (b : LegacyTransactionBuilder) (v v' : Int),
        (b.setVersion v).setVersion v' = { b with version := v' }) ∧
    (∀ (b : LegacyTransactionBuilder) (lt : Nat),
        b.setLockTime lt = { b with lock_time := lt }) ∧
    (∀ (b : LegacyTransactionBuilder) (lt lt' : Nat),
        (b.setLockTime lt).setLockTime lt' = { b with lock_time := lt' }) ∧
    (∀ (b : LegacyTransactionBuilder) (i : TxInput),
        (b.add_input i).inputs = b.inputs ++ [i] ∧
        (b.add_input i).version = b.version ∧
        (b.add_input i).outputs = b.outputs ∧
        (b.add_input i).lock_time = b.lock_time) ∧
    (∀ (b : LegacyTransactionBuilder) (o : TxOutput),
        (b.add_output o).outputs = b.outputs ++ [o] ∧
        (b.add_output o).version = b.version ∧
        (b.add_output o).inputs = b.inputs ∧
        (b.add_output o).lock_time = b.lock_time) ∧
    (∀ b : LegacyTransactionBuilder,
        b.build = { version := b.version, inputs := b.inputs,
                    outputs := b.outputs, lock_time := b.lock_time }) ∧
    LegacyTransaction.builder.build =
      { version := 1, inputs := [], outputs := [], lock_time := 0 } :=
  ⟨rfl, rfl, fun _ _ => rfl, fun _ _ _ => rfl, fun _ _ => rfl, fun _ _ _ => rfl,
   fun _ _ => ⟨rfl, rfl, rfl, rfl⟩, fun _ _ => ⟨rfl, rfl, rfl, rfl⟩, fun _ => rfl, rfl⟩

theorem stripFirst_cons (c a : Char) (t : List Char) :
    stripFirst c (a :: t) = if a = c then some t else none := rfl

theorem stripLast_eq (c : Char) (s : List Char) :
    stripLast c s = if s.getLast? = some c then some s.dropLast else none := by
  rcases List.eq_nil_or_concat s with rfl | ⟨t, a, rfl⟩
  · rfl
  · unfold stripLast
    rw [List.concat_eq_append, List.reverse_concat]
    simp [List.getLast?_concat, List.dropLast_concat]

theorem splitOnce_eq (c : Char) (s : List Char) :
    splitOnce c s = if c ∈ s then
        some (s.takeWhile (fun a => a ≠ c), (s.dropWhile (fun a => a ≠ c)).drop 1)
      else none := by
  induction s with
  | nil => rfl
  | cons a t ih =>
    unfold splitOnce
    by_cases hac : a = c
    · subst hac
      simp [List.takeWhile_cons, List.dropWhile_cons]
    · have hca : ¬ c = a := fun h => hac h.symm
      rw [ih]
      by_cases hmem : c ∈ t
      · simp [hmem, hac, List.takeWhile_cons, List.dropWhile_cons]
      · simp [hmem, hac, hca]

/-- C8. For every component type and every input string,
`Point::from_str` behaves exactly as the claim words it: `Ok` precisely on
inputs that begin with `(`, end with `)`, and whose interior contains a
comma, splitting at the first comma into halves the component parser
accepts; `ParseError "Error parsing values"` when the delimiters or comma
are missing, and `ParseError "Could not parse x value"` /
`"Could not parse y value"` when the respective half is rejected — with
exactly these message strings. -/
theorem claim8_point_from_str_spec {T : Type} (parseT : List Char → Option T)
    (s : List Char) :
    Point.from_str parseT s = pointFromStrClaim parseT s := by
  cases s with
  | nil => rfl
  | cons a t =>
    by_cases ha : a = '('
    · subst ha
      unfold Point.from_str pointFromStrClaim
      rw [stripFirst_cons, if_pos rfl, Option.some_bind, stripLast_eq]
      rcases List.eq_nil_or_concat t with rfl | ⟨u, b, rfl⟩
      · rw [if_neg (by simp), if_neg (by simp)]
        rfl
      · rw [List.concat_eq_append, List.getLast?_concat]
        by_cases hb : b = ')'
        · subst hb
          rw [if_pos rfl, List.dropLast_concat, Option.some_bind, splitOnce_eq]
          have hint : (('(' :: (u ++ [')'])).drop 1).dropLast = u := by
            show (u ++ [')']).dropLast = u
            exact List.dropLast_concat
          by_cases hmem : ',' ∈ u
          · rw [if_pos hmem]
            have hc : ('(' :: (u ++ [')'])).head? = some '(' ∧
                ('(' :: (u ++ [')'])).getLast? = some ')' ∧
                ',' ∈ (('(' :: (u ++ [')'])).drop 1).dropLast := by
              refine ⟨rfl, ?_, ?_⟩
              · show (('(' :: u) ++ [')']).getLast? = some ')'
                exact List.getLast?_concat ('(' :: u)
              · rw [hint]
                exact hmem
            rw [if_pos hc, hint]
          · rw [if_neg hmem, if_neg (by rw [hint]; exact fun hcon => hmem hcon.2.2)]
        · rw [if_neg (by simp [hb])]
          rw [if_neg ?hng]
          case hng =>
            rintro ⟨-, hlast, -⟩
            have h2 : (('(' :: u) ++ [b]).getLast? = some b := List.getLast?_concat ('(' :: u)
            exact hb (Option.some.inj (h2.symm.trans hlast))
          rfl
    · unfold Point.from_str pointFromStrClaim
      rw [stripFirst_cons, if_neg ha,
        if_neg (by rintro ⟨hh, -⟩; exact ha (Option.some.inj hh))]
      rfl

/-- C9, counterexample. The claim as stated says the parser "returns
InvalidAmount when amount == 0"; at argv `["send", "0", ""]` the amount
parses as 0, yet the code returns the empty-address error instead of
`InvalidAmount`, so the clause fails where both validations apply. -/
theorem claim9_counterexample :
    parseU64 "0" = some 0 ∧
    parse_cli_args ["send", "0", ""] ≠ .error .InvalidAmount ∧
    parse_cli_args ["send", "0", ""] = .error (.ParseError "Address cannot be empty") :=
  ⟨rfl, fun h => BitcoinError.noConfusion (Except.error.inj h), rfl⟩

/-- C9, amended. `parse_cli_args` returns
`ParseError "No arguments provided"` on empty argv; on argv recognized as
`send` with a `u64` amount and an address it returns
`ParseError "Address cannot be empty"` when the address is empty,
otherwise `InvalidAmount` when the amount is 0 (the empty-address check
takes precedence), and otherwise `Ok (Send amount address)`;
`["balance"]` yields `Ok Balance`; any other argv that fails recognition
yields `ParseError "Failed to parse arguments"` — with exactly these
message strings. -/
theorem claim9_amended_cli_spec (args : List String) :
    (args = [] → parse_cli_args args = .error (.ParseError "No arguments provided")) ∧
    (∀ a addr n, args = ["send", a, addr] → parseU64 a = some n →
        parse_cli_args args =
          if addr.isEmpty then .error (.ParseError "Address cannot be empty")
          else if n = 0 then .error .InvalidAmount
          else .ok (.Send n addr)) ∧
    (args = ["balance"] → parse_cli_args args = .ok .Balance) ∧
    (args ≠ [] → cliTryParse args = none →
        parse_cli_args args = .error (.ParseError "Failed to parse arguments")) := by
  refine ⟨?_, ?_, ?_, ?_⟩
  · rintro rfl; rfl
  · rintro a addr n rfl hn
    simp [parse_cli_args, cliTryParse, hn]
  · rintro rfl; rfl
  · intro hne hcli
    unfold parse_cli_args
    rw [if_neg (fun h => hne (List.length_eq_zero.mp h)), hcli]

/-- Witness for the amended C9: the spec's scenario 7 send command is
accepted with its parsed amount and address, and `["balance"]` yields
`Balance`. -/
theorem claim9_amended_cli_spec_witness :
    parseU64 "100" = some 100 ∧
    parse_cli_args ["send", "100", "bc1qabc"] = .ok (.Send 100 "bc1qabc") ∧
    parse_cli_args ["balance"] = .ok .Balance := by
  refine ⟨rfl, ?_, ?_⟩
  · have h := (claim9_amended_cli_spec ["send", "100", "bc1qabc"]).2.1 "100" "bc1qabc" 100 rfl rfl
    simpa using h
  · exact (claim9_amended_cli_spec ["balance"]).2.2.1 rfl

/-- C10. On `["send", "0", ""]`, where the amount is zero and the address
is empty at once, the empty-address check wins: the parser answers
`ParseError "Address cannot be empty"`, not `InvalidAmount`. -/
theorem claim10_empty_address_precedence :
    parse_cli_args ["send", "0", ""] = .error (.ParseError "Address cannot be empty") ∧
    parse_cli_args ["send", "0", ""] ≠ .error .InvalidAmount :=
  ⟨rfl, fun h => BitcoinError.noConfusion (Except.error.inj h)⟩

end RustWeek4
